import Mathlib

/-!
Shallow embedding of the GeneticAlgorithm-Scheduler repository
(`ga/data.py`, `ga/schedule.py`, `ga/fitness.py`, `ga/selection.py`,
`ga/crossover.py`, `ga/mutation.py`, `ga/population.py`, `ga/engine.py`)
together with theorems settling the specification claims.

Machine reals (Python floats) are embedded as exact rationals `ℚ`; all
constants of the fitness function are dyadic or decimal and the comparisons
performed by the code are exact at these magnitudes.  Python dictionaries
keyed by strings are embedded as association lists (`List (String × _)`)
with `List.lookup` giving dictionary access; the key sets of the real
dictionaries are duplicate-free by construction.  Randomness is made
explicit: each call of `random.random()` becomes a rational draw in
`[0, 1)` supplied as an argument, and each `random.choice(xs)` becomes an
index into `xs`.
-/

namespace GAScheduler

/-! ## Catalogue data (`ga/data.py`) -/

/-- List FACILITATORS from `ga/data.py`. -/
def FACILITATORS : List String :=
  ["Lock", "Glen", "Banks", "Richards", "Shaw",
   "Singer", "Uther", "Tyler", "Numen", "Zeldin"]

/-- List TIME_SLOTS from `ga/data.py`; the order is semantically meaningful. -/
def TIME_SLOTS : List String :=
  ["10 AM", "11 AM", "12 PM", "1 PM", "2 PM", "3 PM"]

/-- Dictionary ROOMS from `ga/data.py`: room name ↦ capacity. -/
def ROOMS : List (String × Nat) :=
  [("Beach 201", 18), ("Beach 301", 25), ("Frank 119", 95),
   ("Loft 206", 55), ("Loft 310", 48), ("James 325", 110),
   ("Roman 201", 40), ("Roman 216", 80), ("Slater 003", 32)]

/-- The per-activity catalogue record of `ga/data.py`. -/
structure ActivityInfo where
  expected : Nat
  preferred : List String
  other : List String
deriving DecidableEq

/-- Dictionary ACTIVITIES from `ga/data.py` (insertion order preserved). -/
def ACTIVITIES : List (String × ActivityInfo) :=
  [("SLA101A", ⟨40, ["Glen", "Lock", "Banks"],
                ["Numen", "Richards", "Shaw", "Singer"]⟩),
   ("SLA101B", ⟨35, ["Glen", "Lock", "Banks"],
                ["Numen", "Richards", "Shaw", "Singer"]⟩),
   ("SLA191A", ⟨45, ["Glen", "Lock", "Banks"],
                ["Numen", "Richards", "Shaw", "Singer"]⟩),
   ("SLA191B", ⟨40, ["Glen", "Lock", "Banks"],
                ["Numen", "Richards", "Shaw", "Singer"]⟩),
   ("SLA201", ⟨60, ["Glen", "Banks", "Zeldin", "Lock", "Singer"],
               ["Richards", "Uther", "Shaw"]⟩),
   ("SLA291", ⟨50, ["Glen", "Banks", "Zeldin", "Lock", "Singer"],
               ["Richards", "Uther", "Shaw"]⟩),
   ("SLA303", ⟨25, ["Glen", "Zeldin"], ["Banks"]⟩),
   ("SLA304", ⟨20, ["Singer", "Uther"], ["Richards"]⟩),
   ("SLA394", ⟨15, ["Tyler", "Singer"], ["Richards", "Zeldin"]⟩),
   ("SLA449", ⟨30, ["Tyler", "Zeldin", "Uther"], ["Zeldin", "Shaw"]⟩),
   ("SLA451", ⟨90, ["Lock", "Banks", "Zeldin"],
               ["Tyler", "Singer", "Shaw", "Glen"]⟩)]

/-- Pair PAIR_SLA101 from `ga/data.py`. -/
def PAIR_SLA101 : String × String := ("SLA101A", "SLA101B")

/-- Pair PAIR_SLA191 from `ga/data.py`. -/
def PAIR_SLA191 : String × String := ("SLA191A", "SLA191B")

/-- List CROSS_101_191 from `ga/data.py`. -/
def CROSS_101_191 : List (String × String) :=
  [("SLA101A", "SLA191A"), ("SLA101A", "SLA191B"),
   ("SLA101B", "SLA191A"), ("SLA101B", "SLA191B")]

/-- List `ACTIVITY_LIST = list(ACTIVITIES.keys())` from `ga/crossover.py`. -/
def ACTIVITY_LIST : List String := ACTIVITIES.map Prod.fst

/-- The room names, `list(ROOMS.keys())` as used by mutation/initialization. -/
def ROOM_KEYS : List String := ROOMS.map Prod.fst

/-! ## Schedule representation (`ga/schedule.py`) -/

/-- One `(room, time, facilitator)` assignment dictionary; the Python code
initialises fields to `None`, hence `Option`. -/
structure Assignment where
  room : Option String
  time : Option String
  facilitator : Option String
deriving DecidableEq

/-- A `Schedule` object: the `assignments` dictionary (an association list,
insertion-ordered, duplicate-free keys in the real program) together with
the mutable `fitness` cache initialised to `None`. -/
structure Schedule where
  assignments : List (String × Assignment)
  fitness : Option ℚ
deriving DecidableEq

/-- Constructor `Schedule.__init__`: with `assignments=None` it builds the empty
structure over every catalogue activity, otherwise it stores the given
dictionary unchanged; the fitness placeholder is set to `None`.  No
validation of any kind is performed. -/
def scheduleInit (assignments : Option (List (String × Assignment))) : Schedule :=
  match assignments with
  | none =>
      { assignments := ACTIVITIES.map (fun p => (p.1, ⟨none, none, none⟩)),
        fitness := none }
  | some a => { assignments := a, fitness := none }

/-! ## Fitness helpers (`ga/fitness.py`) -/

/-- Character-list test that `s` begins with the characters of `p`
(Python `str.startswith`). -/
def charsBeginWith : List Char → List Char → Bool
  | [], _ => true
  | _ :: _, [] => false
  | c :: cs, d :: ds => c == d && charsBeginWith cs ds

/-- Dictionary TIME_INDEX, mapping each time-slot label to its index. -/
def TIME_INDEX (t : String) : Option Nat :=
  TIME_SLOTS.findIdx? (fun s => s == t)

/-- Helper `_time_diff_hours`: absolute slot-index difference, `0` when either
label is not a known time slot. -/
def timeDiffHours (timeA timeB : String) : Nat :=
  match TIME_INDEX timeA, TIME_INDEX timeB with
  | some i, some j => ((i : ℤ) - (j : ℤ)).natAbs
  | _, _ => 0

/-- Helper `_is_beach_or_roman`: `False` on `None`, otherwise name begins with
`"Beach"` or `"Roman"`. -/
def isBeachOrRoman (roomName : Option String) : Bool :=
  match roomName with
  | none => false
  | some r =>
      charsBeginWith "Beach".data r.data || charsBeginWith "Roman".data r.data

/-- Helper `_score_pair_time_spacing`: same slot `-0.5`; more than four steps
apart `+0.5`; otherwise `0`.  Missing assignments or times give `0`. -/
def scorePairTimeSpacing (act1 act2 : String)
    (assignments : List (String × Assignment)) : ℚ :=
  match assignments.lookup act1, assignments.lookup act2 with
  | some a1, some a2 =>
      match a1.time, a2.time with
      | some t1, some t2 =>
          if t1 = t2 then -(1/2)
          else if timeDiffHours t1 t2 > 4 then 1/2
          else 0
      | _, _ => 0
  | _, _ => 0

/-- Helper `_score_cross_101_191`: same slot `-0.25`; consecutive slots `+0.5`
with a further `-0.4` when exactly one of the two rooms is in a Beach or
Roman building (both rooms present); two slots apart `+0.25`; otherwise
`0`.  Missing assignments or times give `0`. -/
def scoreCross101191 (a101 a191 : String)
    (assignments : List (String × Assignment)) : ℚ :=
  match assignments.lookup a101, assignments.lookup a191 with
  | some d101, some d191 =>
      match d101.time, d191.time with
      | some t1, some t2 =>
          if t1 = t2 then -(1/4)
          else
            let diff := timeDiffHours t1 t2
            if diff = 1 then
              let base : ℚ := 1/2
              match d101.room, d191.room with
              | some r1, some r2 =>
                  if xor (isBeachOrRoman (some r1)) (isBeachOrRoman (some r2))
                  then base - 2/5 else base
              | _, _ => base
            else if diff = 2 then 1/4
            else 0
      | _, _ => 0
  | _, _ => 0

/-- Counting map `room_time_counts` of `compute_schedule_fitness`: number of entries
whose `(room, time)` both present and equal to the key. -/
def roomTimeCount (assignments : List (String × Assignment))
    (room time : String) : Nat :=
  (assignments.filter
    (fun p => p.2.room == some room && p.2.time == some time)).length

/-- Counting map `fac_time_counts` of `compute_schedule_fitness`. -/
def facTimeCount (assignments : List (String × Assignment))
    (fac time : String) : Nat :=
  (assignments.filter
    (fun p => p.2.facilitator == some fac && p.2.time == some time)).length

/-- Counting map `fac_total_counts` of `compute_schedule_fitness`. -/
def facTotalCount (assignments : List (String × Assignment))
    (fac : String) : Nat :=
  (assignments.filter (fun p => p.2.facilitator == some fac)).length

/-- Room-size term (`fitness.py` lines 175–192): applies only when the
room is set, the activity is in the catalogue, the room is in the
catalogue and the expected enrollment is positive — otherwise the term is
silently `0`. -/
def roomSizeTerm (activity : String) (room : Option String) : ℚ :=
  match room with
  | none => 0
  | some r =>
      match ACTIVITIES.lookup activity with
      | none => 0
      | some info =>
          match ROOMS.lookup r with
          | none => 0
          | some capacity =>
              if info.expected > 0 then
                if capacity < info.expected then -(1/2)
                else if (capacity : ℚ) / (info.expected : ℚ) > 3 then -(2/5)
                else if (capacity : ℚ) / (info.expected : ℚ) > 3/2 then -(1/5)
                else 3/10
              else 0

/-- Facilitator-preference term (`fitness.py` lines 194–203). -/
def facPreferenceTerm (activity : String) (fac : Option String) : ℚ :=
  match fac with
  | none => 0
  | some f =>
      match ACTIVITIES.lookup activity with
      | none => 0
      | some info =>
          if f ∈ info.preferred then 1/2
          else if f ∈ info.other then 1/5
          else -(1/10)

/-- Room/time conflict term (`fitness.py` lines 205–209). -/
def roomTimeConflictTerm (assignments : List (String × Assignment))
    (room time : Option String) : ℚ :=
  match room, time with
  | some r, some t => if roomTimeCount assignments r t > 1 then -(1/2) else 0
  | _, _ => 0

/-- Facilitator same-slot load term (`fitness.py` lines 211–217). -/
def facSameTimeTerm (assignments : List (String × Assignment))
    (fac time : Option String) : ℚ :=
  match fac, time with
  | some f, some t =>
      let countFt := facTimeCount assignments f t
      if countFt = 1 then 1/5
      else if countFt > 1 then -(1/5)
      else 0
  | _, _ => 0

/-- Facilitator overall load term as a function of the facilitator name
and total load (`fitness.py` lines 219–234): `-0.5` above four, `-0.4`
below three, except that Tyler is penalty-free below a load of two. -/
def facOverallLoadTerm (f : String) (total : Nat) : ℚ :=
  if total > 4 then -(1/2)
  else if total < 3 then
    if f = "Tyler" then (if total ≥ 2 then -(2/5) else 0)
    else -(2/5)
  else 0

/-- The overall-load term as applied per activity: `0` for an unset
facilitator, otherwise `facOverallLoadTerm` at the schedule-wide load. -/
def facOverallLoadTermOf (assignments : List (String × Assignment))
    (fac : Option String) : ℚ :=
  match fac with
  | none => 0
  | some f => facOverallLoadTerm f (facTotalCount assignments f)

/-- The cross-pair contribution accumulated by the `for (a101, a191) in
CROSS_101_191` loop of `compute_schedule_fitness` for one activity. -/
def crossPart (assignments : List (String × Assignment))
    (activity : String) : ℚ :=
  ((CROSS_101_191.filter (fun pr => pr.1 == activity)).map
    (fun pr => scoreCross101191 pr.1 pr.2 assignments)).sum

/-- Per-activity score of `compute_schedule_fitness` (lines 168–254). -/
def activityScore (assignments : List (String × Assignment))
    (activity : String) (data : Assignment) : ℚ :=
  roomSizeTerm activity data.room
  + facPreferenceTerm activity data.facilitator
  + roomTimeConflictTerm assignments data.room data.time
  + facSameTimeTerm assignments data.facilitator data.time
  + facOverallLoadTermOf assignments data.facilitator
  + (if activity = PAIR_SLA101.1
     then scorePairTimeSpacing PAIR_SLA101.1 PAIR_SLA101.2 assignments else 0)
  + (if activity = PAIR_SLA191.1
     then scorePairTimeSpacing PAIR_SLA191.1 PAIR_SLA191.2 assignments else 0)
  + crossPart assignments activity

/-- Function `compute_schedule_fitness`: sum of the per-activity scores; the total
is written into the schedule's `fitness` cache and returned. -/
def computeScheduleFitness (s : Schedule) : Schedule × ℚ :=
  let total := (s.assignments.map (fun p => activityScore s.assignments p.1 p.2)).sum
  ({ s with fitness := some total }, total)

/-! ## Violation counting (`ga/fitness.py`, `compute_violations`) -/

/-- The overload test of `compute_violations` (line 351): `total > 4`. -/
def facOverloadViolation (total : Nat) : Bool :=
  total > 4

/-- The underload test of `compute_violations` (lines 355–361):
`total < 3`, with the Tyler exception — no count only when Tyler's load is
below two. -/
def facUnderloadViolation (fac : String) (total : Nat) : Bool :=
  if total < 3 then
    if fac = "Tyler" then (if total ≥ 2 then true else false)
    else true
  else false

/-! ## Selection (`ga/selection.py`) -/

/-- Function `softmax` of `ga/selection.py`, with the exponential
abstracted: the Python code applies `math.exp`; here `e` is an arbitrary
function standing for it (every theorem assumes only that `e` is
positive, which holds for the exponential).  The structure mirrors the
source exactly: subtract the maximum of the list, apply `e`, divide by
the sum. -/
def softmaxWith (e : ℚ → ℚ) (fitnessList : List ℚ) : List ℚ :=
  match fitnessList with
  | [] => []
  | x :: xs =>
      let maxF := (x :: xs).foldl max x
      let expValues := (x :: xs).map (fun f => e (f - maxF))
      let total := expValues.sum
      expValues.map (fun ev => ev / total)

/-! ## Crossover (`ga/crossover.py`), with an explicit store

Python assignments are dictionaries held by reference; to state the
independent-copy property the dictionaries live in an explicit store:
an address-indexed heap of `Assignment` values together with the next
free address.  A parent schedule is a map from activity name to the
address of its assignment dictionary. -/

/-- Address-indexed store of assignment dictionaries. -/
structure Store where
  heap : Nat → Assignment
  nextFree : Nat

/-- In-place update of one field of the dictionary at address `a`
(the effect of `assignment["room"] = ...` and friends). -/
def setField (st : Store) (a : Nat) (f : Assignment → Assignment) : Store :=
  { st with heap := fun x => if x = a then f (st.heap x) else st.heap x }

/-- Function `single_point_crossover` with the drawn cut index `k`
explicit: for each position `i` in `ACTIVITY_LIST`, the child receives a
fresh dictionary (a new address at `nextFree + i`) holding a copy of
parent A's assignment when `i ≤ k` and of parent B's otherwise.
Returns the updated store and the child's assignment dictionary as a
name-to-address map. -/
def singlePointCrossoverS (st : Store) (pa pb : String → Nat) (k : Nat) :
    Store × List (String × Nat) :=
  let n := ACTIVITY_LIST.length
  let srcAddr : Nat → Nat := fun i =>
    let act := ACTIVITY_LIST.getD i ""
    if i ≤ k then pa act else pb act
  let heap2 : Nat → Assignment := fun a =>
    if st.nextFree ≤ a ∧ a < st.nextFree + n then st.heap (srcAddr (a - st.nextFree))
    else st.heap a
  ({ heap := heap2, nextFree := st.nextFree + n },
   (List.range n).map (fun i => (ACTIVITY_LIST.getD i "", st.nextFree + i)))

/-! ## Mutation (`ga/mutation.py`) -/

/-- One pass of `mutate` over a single assignment dictionary: three
independent draws in `[0, 1)` (the three `random.random()` calls, one per
field) and three domain indices (the three `random.choice` calls).  Each
field is replaced exactly when its draw is below the mutation rate. -/
def mutateAssignment (rate : ℚ) (draws : Fin 3 → ℚ) (picks : Fin 3 → Nat)
    (a : Assignment) : Assignment :=
  let a1 := if draws 0 < rate
            then { a with room := some (ROOM_KEYS.getD (picks 0) "") } else a
  let a2 := if draws 1 < rate
            then { a1 with time := some (TIME_SLOTS.getD (picks 1) "") } else a1
  let a3 := if draws 2 < rate
            then { a2 with facilitator := some (FACILITATORS.getD (picks 2) "") } else a2
  a3

/-- Function `mutate`: for every catalogue activity, mutate the schedule's
dictionary entry for it in place; entries keyed outside the catalogue are
untouched.  Only the `room`, `time` and `facilitator` fields are written;
the `fitness` attribute is not read or written. -/
def mutateSchedule (rate : ℚ) (draws : String → Fin 3 → ℚ)
    (picks : String → Fin 3 → Nat) (s : Schedule) : Schedule :=
  { s with assignments := s.assignments.map (fun p =>
      if p.1 ∈ ACTIVITY_LIST
      then (p.1, mutateAssignment rate (draws p.1) (picks p.1) p.2)
      else p) }

/-! ## Population (`ga/population.py`) and the size-repair step -/

/-- Function `initialize_population` with the random schedule generator
abstracted: it appends `size` freshly generated schedules. -/
def initPopulation {S : Type} (randSchedule : Nat → S) (size : Nat) : List S :=
  (List.range size).map randSchedule

/-- The size-repair step of `run_genetic_algorithm` (engine lines
151–161): concatenate elites and children, truncate when over the target
size, otherwise pad with children taken from the front. -/
def repairPopulation {S : Type} (elites children : List S) (size : Nat) : List S :=
  let np := elites ++ children
  if np.length > size then np.take size
  else if np.length < size then np ++ children.take (size - np.length)
  else np

/-- One evolving step of `run_genetic_algorithm` (engine lines 119–161),
with the stochastic parts abstracted: `childOf i` is the mutated child
produced from the i-th selected parent pair (the engine draws
`population_size` pairs and produces one child per pair).  Elites are the
top `elitismCount` schedules of the fitness-sorted population. -/
def nextPopulation {S : Type} (population : List S) (fitnessList : List ℚ)
    (childOf : Nat → S) (populationSize elitismCount : Nat) : List S :=
  let children := (List.range populationSize).map childOf
  let indexed := population.zip fitnessList
  let sorted := indexed.mergeSort (fun a b => decide (b.2 ≤ a.2))
  let elites := (sorted.take elitismCount).map Prod.fst
  repairPopulation elites children populationSize

/-- The population at each generation boundary: generation 0 is the
initial population, and each later generation is obtained by one evolving
step (fitness values and child generators per generation abstracted as
oracles). -/
def populationAtGen {S : Type} (g0 : List S) (fits : Nat → List ℚ)
    (childOf : Nat → Nat → S) (populationSize elitismCount : Nat) : Nat → List S
  | 0 => g0
  | k + 1 =>
      nextPopulation (populationAtGen g0 fits childOf populationSize elitismCount k)
        (fits k) (childOf k) populationSize elitismCount

/-! ## Generational loop (`ga/engine.py`) -/

/-- The improvement percentage of engine lines 85–89:
`(avg - prevAvg) / |denom| * 100` with `denom = prevAvg` when
`|prevAvg| > 1e-9` and `1e-9` otherwise. -/
def improvementPct (prevAvg avg : ℚ) : ℚ :=
  let denom := if |prevAvg| > 1 / 1000000000 then prevAvg else 1 / 1000000000
  (avg - prevAvg) / |denom| * 100

/-- The generational loop of `run_genetic_algorithm` projected onto its
stopping behaviour, with the per-generation average fitness abstracted as
a synthetic history `avgs` (element `g` is the average recorded at
0-indexed generation `g`).  Arguments: remaining iterations (`fuel`),
0-indexed loop counter `gen`, the previous average (engine variable
`prev_avg`, `none` before the first generation), and the value of the
engine variable `generations` from the previous iteration.  The loop
breaks exactly when an improvement exists, the 1-indexed count has
reached the configured minimum, and the improvement is below one
percent. -/
def gaLoopAux (avgs : Nat → ℚ) (minGenerations : Nat) :
    Nat → Nat → Option ℚ → Nat → Nat
  | 0, _, _, generations => generations
  | fuel + 1, gen, prevAvg, _ =>
      let generations := gen + 1
      let avg := avgs gen
      let improvement : Option ℚ := prevAvg.map (fun p => improvementPct p avg)
      match improvement with
      | some imp =>
          if gen + 1 ≥ minGenerations ∧ imp < 1 then generations
          else gaLoopAux avgs minGenerations fuel (gen + 1) (some avg) generations
      | none => gaLoopAux avgs minGenerations fuel (gen + 1) (some avg) generations

/-- Value `generations_run` reported by `run_genetic_algorithm` for a
synthetic average-fitness history. -/
def generationsRun (avgs : Nat → ℚ) (minGenerations maxGenerations : Nat) : Nat :=
  gaLoopAux avgs minGenerations maxGenerations 0 none 0

/-- The stop condition at 1-indexed generation `g`: an improvement exists
(only from the second generation on), the minimum generation count is
reached, and the recorded improvement is strictly below one percent. -/
def stopsAt (avgs : Nat → ℚ) (minGenerations g : Nat) : Prop :=
  2 ≤ g ∧ minGenerations ≤ g ∧ improvementPct (avgs (g - 2)) (avgs (g - 1)) < 1

instance (avgs : Nat → ℚ) (minGenerations g : Nat) :
    Decidable (stopsAt avgs minGenerations g) := by
  unfold stopsAt; infer_instance

/-! ## Additional definitions used by the theorems -/

/-- Value of the engine variable `prev_avg` at the start of the loop
iteration with 0-indexed counter `gen`: `None` before the first
generation, afterwards the previous generation's average. -/
def prevOpt (avgs : Nat → ℚ) : Nat → Option ℚ
  | 0 => none
  | n + 1 => some (avgs n)

/-- Slot-index distance of two time-slot labels, phrased as in the
specification: the absolute difference of their indices in the ordered
slot sequence. -/
def slotDistance (t1 t2 : String) : Nat :=
  (((TIME_SLOTS.findIdx (fun s => s == t1)) : ℤ)
    - ((TIME_SLOTS.findIdx (fun s => s == t2)) : ℤ)).natAbs

/-- An assignments dictionary referencing the room "Nowhere 1", which is
not in the catalogue. -/
def badAssignments : List (String × Assignment) :=
  [("SLA101A", ⟨some "Nowhere 1", some "10 AM", some "Glen"⟩)]

/-- A concrete four-activity assignments dictionary used to instantiate
the cross-pair theorem. -/
def crossWitnessAssignments : List (String × Assignment) :=
  [("SLA101A", ⟨some "Beach 201", some "10 AM", some "Glen"⟩),
   ("SLA101B", ⟨some "Loft 206", some "12 PM", some "Lock"⟩),
   ("SLA191A", ⟨some "Frank 119", some "11 AM", some "Banks"⟩),
   ("SLA191B", ⟨some "Roman 201", some "3 PM", some "Shaw"⟩)]

/-! ## Helper lemmas -/

theorem list_sum_map_add {α : Type} (u v : α → ℚ) (l : List α) :
    (l.map (fun a => u a + v a)).sum = (l.map u).sum + (l.map v).sum := by
  induction l with
  | nil => simp
  | cons x xs ih => simp [ih]; ring

theorem list_sum_map_div (l : List ℚ) (c : ℚ) :
    (l.map (fun x => x / c)).sum = l.sum / c := by
  induction l with
  | nil => simp
  | cons x xs ih => simp [ih, add_div]

theorem sum_ite_count (b : String) (c : ℚ) (ks : List String) :
    ((ks.map (fun a => if b = a then c else 0)).sum) = (ks.count b : ℚ) * c := by
  induction ks with
  | nil => simp
  | cons x xs ih =>
      by_cases h : b = x
      · subst h
        simp [List.count_cons, ih]
        ring
      · simp [List.count_cons, h, Ne.symm h, ih]

theorem cross_sum_decomp (ks : List String) (ps : List (String × String))
    (f : String × String → ℚ) :
    (ks.map (fun a => ((ps.filter (fun pr => pr.1 == a)).map f).sum)).sum
      = (ps.map (fun pr => (ks.count pr.1 : ℚ) * f pr)).sum := by
  induction ps with
  | nil => simp
  | cons p ps ih =>
      have hstep : ∀ a : String,
          (((p :: ps).filter (fun pr => pr.1 == a)).map f).sum
            = (if p.1 = a then f p else 0)
              + ((ps.filter (fun pr => pr.1 == a)).map f).sum := by
        intro a
        by_cases h : p.1 = a
        · simp [List.filter_cons, h]
        · have hpa : (p.1 == a) = false := by simpa using h
          simp [List.filter_cons, hpa, h]
      calc (ks.map (fun a => (((p :: ps).filter (fun pr => pr.1 == a)).map f).sum)).sum
          = (ks.map (fun a => (if p.1 = a then f p else 0)
              + ((ps.filter (fun pr => pr.1 == a)).map f).sum)).sum := by
            simp only [hstep]
        _ = (ks.map (fun a => if p.1 = a then f p else 0)).sum
              + (ks.map (fun a => ((ps.filter (fun pr => pr.1 == a)).map f).sum)).sum :=
            list_sum_map_add _ _ ks
        _ = (ks.count p.1 : ℚ) * f p
              + (ps.map (fun pr => (ks.count pr.1 : ℚ) * f pr)).sum := by
            rw [sum_ite_count, ih]
        _ = ((p :: ps).map (fun pr => (ks.count pr.1 : ℚ) * f pr)).sum := by
            simp

/-! ## Claim theorems -/

/-- C2: for every facilitator name and total load, the fitness
evaluator's total-load term gives each of that facilitator's activities
-0.5 exactly when the load exceeds 4, and -0.4 exactly when the load is
below 3 — except that Tyler incurs the under-load penalty only from a
load of 2 upwards (0 and 1 are penalty-free, exactly 2 is still
penalized) — and the overload/underload tests of compute_violations fire
for exactly the facilitator-load combinations the evaluator penalizes. -/
theorem fac_load_term_consistent (fac : String) (total : Nat) :
    facOverallLoadTerm fac total =
      (if 4 < total then -(1/2)
       else if total < 3 ∧ (fac ≠ "Tyler" ∨ 2 ≤ total) then -(2/5)
       else 0)
    ∧ (facOverloadViolation total = true ↔ facOverallLoadTerm fac total = -(1/2))
    ∧ (facUnderloadViolation fac total = true ↔ facOverallLoadTerm fac total = -(2/5)) := by
  unfold facOverallLoadTerm facOverloadViolation facUnderloadViolation
  refine ⟨?_, ?_, ?_⟩ <;>
    · by_cases h4 : 4 < total <;> by_cases h3 : total < 3 <;>
      by_cases hT : fac = "Tyler" <;> by_cases h2 : 2 ≤ total <;>
      simp only [h4, h3, hT, h2, if_true, if_false, decide_eq_true_eq,
        not_true, not_false_iff, ite_true, ite_false, ge_iff_le,
        if_pos, if_neg, not_lt, true_and, false_and, and_true, and_false,
        ne_eq, not_false_eq_true, true_or, or_true, false_or, or_false] <;>
      first
        | omega
        | norm_num

/-- C10: mutation writes only the room, time and facilitator fields: for
every schedule, rate and random draws, the fitness cache after `mutate`
is exactly the cache before, so a previously computed value silently
stays cached even when assignment fields were replaced (as the exhibited
schedule shows: after a rate-1 mutation the cache still holds 3/5 while
recomputing yields a different fitness). -/
theorem mutate_preserves_fitness_cache :
    (∀ (rate : ℚ) (draws : String → Fin 3 → ℚ) (picks : String → Fin 3 → Nat)
       (s : Schedule),
       (mutateSchedule rate draws picks s).fitness = s.fitness)
    ∧ ∃ (s : Schedule) (rate : ℚ) (draws : String → Fin 3 → ℚ)
        (picks : String → Fin 3 → Nat) (q : ℚ),
        s.fitness = some q
        ∧ (mutateSchedule rate draws picks s).fitness = some q
        ∧ (computeScheduleFitness (mutateSchedule rate draws picks s)).2 ≠ q := by
  constructor
  · intro rate draws picks s
    rfl
  · refine ⟨{ assignments := [("SLA303", ⟨some "Beach 301", some "10 AM", some "Glen"⟩)],
              fitness := some (3/5) }, 1, fun _ _ => 0,
            fun _ i => if i = 0 then 1 else if i = 1 then 0 else 6, 3/5, rfl, rfl, ?_⟩
    have hmut : mutateSchedule 1 (fun _ _ => 0)
        (fun _ i => if i = 0 then 1 else if i = 1 then 0 else 6)
        { assignments := [("SLA303", ⟨some "Beach 301", some "10 AM", some "Glen"⟩)],
          fitness := some (3/5) }
        = { assignments := [("SLA303", ⟨some "Beach 301", some "10 AM", some "Uther"⟩)],
            fitness := some (3/5) } := by
      simp [mutateSchedule, mutateAssignment, ACTIVITY_LIST, ACTIVITIES,
        ROOM_KEYS, ROOMS, TIME_SLOTS, FACILITATORS]
    rw [hmut]
    have hfit : (computeScheduleFitness
        { assignments := [("SLA303", ⟨some "Beach 301", some "10 AM", some "Uther"⟩)],
          fitness := some (3/5) }).2 = 0 := by
      simp [computeScheduleFitness, activityScore, roomSizeTerm,
        facPreferenceTerm, roomTimeConflictTerm, facSameTimeTerm,
        facOverallLoadTermOf, facOverallLoadTerm, facTotalCount, facTimeCount,
        roomTimeCount, crossPart, scorePairTimeSpacing, scoreCross101191,
        PAIR_SLA101, PAIR_SLA191, CROSS_101_191, ACTIVITIES, ROOMS,
        List.lookup, List.filter]
      norm_num
    rw [hfit]
    norm_num

/-- C9: the population has exactly `populationSize` schedules at every
generation boundary: the initial population has that size, and after each
evolving step the elites-plus-children list is truncated when over the
target and padded from the front of the children list when short, so the
size is invariant across all generations. -/
theorem population_size_invariant {S : Type} (randSchedule : Nat → S)
    (fits : Nat → List ℚ) (childOf : Nat → Nat → S)
    (populationSize elitismCount k : Nat) :
    (populationAtGen (initPopulation randSchedule populationSize) fits childOf
        populationSize elitismCount k).length = populationSize := by
  induction k with
  | zero => simp [populationAtGen, initPopulation]
  | succ n ih =>
      show (nextPopulation _ _ _ _ _).length = populationSize
      simp only [nextPopulation, repairPopulation]
      split_ifs <;>
        simp only [List.length_take, List.length_append, List.length_map,
          List.length_range] at * <;>
        omega

/-- C5: for every positive exponential-stand-in and every non-empty
fitness list (equal or negative values included), softmax — which
subtracts the list's maximum before exponentiating — returns a list of
the same length whose entries all lie in [0, 1] and sum to 1. -/
theorem softmax_prob_dist (e : ℚ → ℚ) (l : List ℚ)
    (hpos : ∀ q, 0 < e q) (hne : l ≠ []) :
    (softmaxWith e l).length = l.length
    ∧ (∀ p ∈ softmaxWith e l, 0 ≤ p ∧ p ≤ 1)
    ∧ (softmaxWith e l).sum = 1 := by
  match l with
  | [] => exact absurd rfl hne
  | x :: xs =>
    simp only [softmaxWith]
    set maxF := (x :: xs).foldl max x with hmax
    set expValues := (x :: xs).map (fun f => e (f - maxF)) with hexp
    have hmem : ∀ ev ∈ expValues, 0 < ev := by
      intro ev hev
      rw [hexp] at hev
      obtain ⟨f, _, rfl⟩ := List.mem_map.mp hev
      exact hpos _
    have hnonneg : ∀ ev ∈ expValues, 0 ≤ ev := fun ev hev => (hmem ev hev).le
    have htotal : 0 < expValues.sum := by
      have : e (x - maxF) ∈ expValues := by
        rw [hexp]; exact List.mem_map.mpr ⟨x, by simp, rfl⟩
      calc (0:ℚ) < e (x - maxF) := hpos _
        _ ≤ expValues.sum := List.single_le_sum hnonneg _ this
    refine ⟨by simp [hexp], ?_, ?_⟩
    · intro p hp
      obtain ⟨ev, hev, rfl⟩ := List.mem_map.mp hp
      constructor
      · exact div_nonneg (hnonneg ev hev) htotal.le
      · exact (div_le_one htotal).mpr (List.single_le_sum hnonneg _ hev)
    · rw [list_sum_map_div]
      exact div_self htotal.ne'

/-- Witness for C5 at the constant exponential and the one-element list. -/
theorem softmax_prob_dist_witness :
    (∀ q : ℚ, 0 < (fun _ : ℚ => (1:ℚ)) q) ∧ ([(0:ℚ)] ≠ [])
    ∧ ((softmaxWith (fun _ => 1) [0]).length = [(0:ℚ)].length
       ∧ (∀ p ∈ softmaxWith (fun _ => 1) [(0:ℚ)], 0 ≤ p ∧ p ≤ 1)
       ∧ (softmaxWith (fun _ => 1) [(0:ℚ)]).sum = 1) :=
  ⟨fun _ => one_pos, by simp,
   softmax_prob_dist (fun _ => 1) [0] (fun _ => one_pos) (by simp)⟩

theorem gaLoopAux_spec (avgs : Nat → ℚ) (minG : Nat) :
    ∀ (fuel g0 : Nat),
      (∃ g, g0 < g ∧ g ≤ g0 + fuel ∧ stopsAt avgs minG g
         ∧ gaLoopAux avgs minG fuel g0 (prevOpt avgs g0) g0 = g
         ∧ ∀ g2, g0 < g2 → g2 < g → ¬ stopsAt avgs minG g2)
      ∨ (gaLoopAux avgs minG fuel g0 (prevOpt avgs g0) g0 = g0 + fuel
         ∧ ∀ g, g0 < g → g ≤ g0 + fuel → ¬ stopsAt avgs minG g) := by
  intro fuel
  induction fuel with
  | zero =>
      intro g0
      right
      exact ⟨rfl, fun g hg hle => absurd (Nat.lt_of_lt_of_le hg (by omega)) (lt_irrefl g0)⟩
  | succ fuel ih =>
      intro g0
      cases g0 with
      | zero =>
          have hstep : gaLoopAux avgs minG (fuel + 1) 0 (prevOpt avgs 0) 0
              = gaLoopAux avgs minG fuel 1 (prevOpt avgs 1) 1 := rfl
          have hno1 : ¬ stopsAt avgs minG 1 := by
            rintro ⟨h2, -, -⟩; omega
          rcases ih 1 with ⟨g, hg1, hg2, hstop, heq, hmin⟩ | ⟨heq, hnone⟩
          · refine Or.inl ⟨g, by omega, by omega, hstop, hstep.trans heq, ?_⟩
            intro g2 h0 hlt
            rcases Nat.lt_or_ge 1 g2 with hcase | hcase
            · exact hmin g2 hcase hlt
            · have : g2 = 1 := by omega
              simpa [this] using hno1
          · refine Or.inr ⟨?_, ?_⟩
            · rw [hstep, heq]; omega
            · intro g hg hle
              rcases Nat.lt_or_ge 1 g with hcase | hcase
              · exact hnone g hcase (by omega)
              · have : g = 1 := by omega
                simpa [this] using hno1
      | succ n =>
          have hstep : gaLoopAux avgs minG (fuel + 1) (n + 1) (prevOpt avgs (n + 1)) (n + 1)
              = if (n + 1) + 1 ≥ minG ∧ improvementPct (avgs n) (avgs (n + 1)) < 1
                then (n + 1) + 1
                else gaLoopAux avgs minG fuel (n + 2) (prevOpt avgs (n + 2)) (n + 2) := rfl
          have hiff : ((n + 1) + 1 ≥ minG ∧ improvementPct (avgs n) (avgs (n + 1)) < 1)
              ↔ stopsAt avgs minG (n + 2) := by
            constructor
            · rintro ⟨h1, h2⟩
              exact ⟨by omega, h1, h2⟩
            · rintro ⟨-, h1, h2⟩
              exact ⟨h1, h2⟩
          by_cases hc : stopsAt avgs minG (n + 2)
          · refine Or.inl ⟨n + 2, by omega, by omega, hc, ?_, ?_⟩
            · rw [hstep, if_pos (hiff.mpr hc)]
            · intro g2 hlo hhi
              intro hs
              omega
          · have hneg : ¬ ((n + 1) + 1 ≥ minG ∧ improvementPct (avgs n) (avgs (n + 1)) < 1) :=
              fun h => hc (hiff.mp h)
            rcases ih (n + 2) with ⟨g, hg1, hg2, hstop, heq, hmin⟩ | ⟨heq, hnone⟩
            · refine Or.inl ⟨g, by omega, by omega, hstop, ?_, ?_⟩
              · rw [hstep, if_neg hneg]; exact heq
              · intro g2 hlo hhi
                rcases Nat.lt_or_ge (n + 2) g2 with hcase | hcase
                · exact hmin g2 hcase hhi
                · have : g2 = n + 2 := by omega
                  simpa [this] using hc
            · refine Or.inr ⟨?_, ?_⟩
              · rw [hstep, if_neg hneg, heq]; omega
              · intro g hlo hhi
                rcases Nat.lt_or_ge (n + 2) g with hcase | hcase
                · exact hnone g hcase (by omega)
                · have : g = n + 2 := by omega
                  simpa [this] using hc

/-- C1: for every synthetic average-fitness history and configuration,
the generational loop terminates at the first 1-indexed generation g that
has reached the configured minimum and whose recorded improvement (which
exists only from the second generation on) is strictly below 1.0 percent,
reporting generations_run = g and running nothing further; when no such
generation occurs within the ceiling the loop runs exactly
max_generations generations and reports generations_run =
max_generations. -/
theorem engine_stop_rule (avgs : Nat → ℚ) (minGenerations maxGenerations : Nat) :
    (∃ g, 1 ≤ g ∧ g ≤ maxGenerations ∧ stopsAt avgs minGenerations g
       ∧ generationsRun avgs minGenerations maxGenerations = g
       ∧ ∀ g2, 1 ≤ g2 → g2 < g → ¬ stopsAt avgs minGenerations g2)
    ∨ (generationsRun avgs minGenerations maxGenerations = maxGenerations
       ∧ ∀ g, 1 ≤ g → g ≤ maxGenerations → ¬ stopsAt avgs minGenerations g) := by
  rcases gaLoopAux_spec avgs minGenerations maxGenerations 0 with
    ⟨g, h1, h2, h3, h4, h5⟩ | ⟨h1, h2⟩
  · exact Or.inl ⟨g, h1, by omega, h3, h4, fun g2 ha hb => h5 g2 ha hb⟩
  · refine Or.inr ⟨?_, fun g ha hb => h2 g ha (by omega)⟩
    rw [show generationsRun avgs minGenerations maxGenerations
        = gaLoopAux avgs minGenerations maxGenerations 0 (prevOpt avgs 0) 0 from rfl, h1]
    omega

/-- C7 counterexample: with the invalid combination min_generations = 5 >
max_generations = 3 the engine does not fail fast — it executes and
reports 3 generations. -/
theorem engine_no_fail_fast_counterexample :
    generationsRun (fun _ => 0) 5 3 = 3 ∧ (3:Nat) ≠ 0 := by
  constructor
  · simp [generationsRun, gaLoopAux]
  · omega

/-- C7 amended: run_genetic_algorithm performs no parameter validation;
with minimum generations exceeding the maximum, the run proceeds anyway
and simply executes the full max_generations generations (the stop
condition can never become eligible). -/
theorem engine_invalid_params_run_anyway (avgs : Nat → ℚ)
    (minGenerations maxGenerations : Nat) (h : maxGenerations < minGenerations) :
    generationsRun avgs minGenerations maxGenerations = maxGenerations := by
  rcases gaLoopAux_spec avgs minGenerations maxGenerations 0 with
    ⟨g, h1, h2, h3, h4, h5⟩ | ⟨h1, h2⟩
  · rcases h3 with ⟨-, hm, -⟩
    omega
  · rw [show generationsRun avgs minGenerations maxGenerations
        = gaLoopAux avgs minGenerations maxGenerations 0 (prevOpt avgs 0) 0 from rfl, h1]
    omega

/-- Witness for the amended C7 theorem at a concrete invalid
configuration. -/
theorem engine_invalid_params_run_anyway_witness :
    (3:Nat) < 5 ∧ generationsRun (fun _ => (1:ℚ)) 5 3 = 3 :=
  ⟨by omega, engine_invalid_params_run_anyway (fun _ => 1) 5 3 (by omega)⟩

theorem timeIndex_mem (t : String) (ht : t ∈ TIME_SLOTS) :
    TIME_INDEX t = some (TIME_SLOTS.findIdx (fun s => s == t)) := by
  fin_cases ht <;> rfl

/-- C3: for every schedule with exactly one entry for each 101-side
activity, the cross-pair term is accumulated exactly once per designated
cross pair, on the 101-side activity's score, and its value is -0.25 on
equal time slots, +0.5 at slot-index distance 1 — reduced by 0.4 to +0.1
exactly when one of the two rooms is in the Beach or Roman building group
and the other is not — +0.25 at distance 2, and 0 otherwise. -/
theorem cross_pair_term_spec (assignments : List (String × Assignment))
    (h101A : ((assignments.map Prod.fst).count "SLA101A") = 1)
    (h101B : ((assignments.map Prod.fst).count "SLA101B") = 1) :
    ((assignments.map (fun p => crossPart assignments p.1)).sum
       = (CROSS_101_191.map (fun pr => scoreCross101191 pr.1 pr.2 assignments)).sum)
    ∧ (∀ a101 a191 d101 d191 t1 t2 r1 r2,
        (a101, a191) ∈ CROSS_101_191 →
        assignments.lookup a101 = some d101 →
        assignments.lookup a191 = some d191 →
        d101.time = some t1 → d191.time = some t2 →
        d101.room = some r1 → d191.room = some r2 →
        t1 ∈ TIME_SLOTS → t2 ∈ TIME_SLOTS →
        scoreCross101191 a101 a191 assignments =
          (if t1 = t2 then -(1/4)
           else if slotDistance t1 t2 = 1 then
             (if isBeachOrRoman (some r1) ≠ isBeachOrRoman (some r2)
              then 1/10 else 1/2)
           else if slotDistance t1 t2 = 2 then 1/4
           else 0)) := by
  constructor
  · have hmap : (assignments.map (fun p => crossPart assignments p.1))
        = ((assignments.map Prod.fst).map (fun a => crossPart assignments a)) := by
      simp [List.map_map, Function.comp]
    rw [hmap]
    unfold crossPart
    rw [cross_sum_decomp (assignments.map Prod.fst) CROSS_101_191
        (fun pr => scoreCross101191 pr.1 pr.2 assignments)]
    simp [CROSS_101_191, h101A, h101B]
  · intro a101 a191 d101 d191 t1 t2 r1 r2 hmem hl1 hl2 ht1 ht2 hr1 hr2 hs1 hs2
    have hdiff : timeDiffHours t1 t2 = slotDistance t1 t2 := by
      unfold timeDiffHours slotDistance
      rw [timeIndex_mem t1 hs1, timeIndex_mem t2 hs2]
    simp only [scoreCross101191, hl1, hl2, ht1, ht2, hr1, hr2, hdiff]
    by_cases h12 : t1 = t2
    · simp [h12]
    · by_cases hd1 : slotDistance t1 t2 = 1
      · cases hb1 : isBeachOrRoman (some r1) <;>
        cases hb2 : isBeachOrRoman (some r2) <;>
          simp [h12, hd1, hb1, hb2] <;> norm_num
      · by_cases hd2 : slotDistance t1 t2 = 2 <;> simp [h12, hd1, hd2]

/-- Witness for C3 at a concrete four-activity schedule. -/
theorem cross_pair_term_spec_witness :
    ((crossWitnessAssignments.map Prod.fst).count "SLA101A" = 1)
    ∧ ((crossWitnessAssignments.map Prod.fst).count "SLA101B" = 1)
    ∧ (((crossWitnessAssignments.map
          (fun p => crossPart crossWitnessAssignments p.1)).sum
         = (CROSS_101_191.map
             (fun pr => scoreCross101191 pr.1 pr.2 crossWitnessAssignments)).sum)
       ∧ (∀ a101 a191 d101 d191 t1 t2 r1 r2,
            (a101, a191) ∈ CROSS_101_191 →
            crossWitnessAssignments.lookup a101 = some d101 →
            crossWitnessAssignments.lookup a191 = some d191 →
            d101.time = some t1 → d191.time = some t2 →
            d101.room = some r1 → d191.room = some r2 →
            t1 ∈ TIME_SLOTS → t2 ∈ TIME_SLOTS →
            scoreCross101191 a101 a191 crossWitnessAssignments =
              (if t1 = t2 then -(1/4)
               else if slotDistance t1 t2 = 1 then
                 (if isBeachOrRoman (some r1) ≠ isBeachOrRoman (some r2)
                  then 1/10 else 1/2)
               else if slotDistance t1 t2 = 2 then 1/4
               else 0))) :=
  ⟨by decide, by decide,
   cross_pair_term_spec crossWitnessAssignments (by decide) (by decide)⟩

/-- C4: single-point crossover with drawn cut index k returns a child
whose i-th entry is the i-th canonical activity bound to a freshly
allocated dictionary whose value equals (by value) parent A's assignment
for that activity when i ≤ k and parent B's when i > k; the fresh
dictionaries are independent copies, so the crossover leaves both
parents' dictionaries untouched and subsequently writing any field of any
child dictionary changes neither parent. -/
theorem single_point_crossover_spec (st : Store) (pa pb : String → Nat) (k : Nat)
    (hpa : ∀ act, pa act < st.nextFree) (hpb : ∀ act, pb act < st.nextFree) :
    (∀ i, i < ACTIVITY_LIST.length →
      (singlePointCrossoverS st pa pb k).2.getD i ("", 0)
        = (ACTIVITY_LIST.getD i "", st.nextFree + i)
      ∧ (singlePointCrossoverS st pa pb k).1.heap (st.nextFree + i) =
          (if i ≤ k then st.heap (pa (ACTIVITY_LIST.getD i ""))
           else st.heap (pb (ACTIVITY_LIST.getD i ""))))
    ∧ (∀ act, (singlePointCrossoverS st pa pb k).1.heap (pa act) = st.heap (pa act)
        ∧ (singlePointCrossoverS st pa pb k).1.heap (pb act) = st.heap (pb act))
    ∧ (∀ i, i < ACTIVITY_LIST.length → ∀ f act,
        (setField (singlePointCrossoverS st pa pb k).1 (st.nextFree + i) f).heap (pa act)
          = st.heap (pa act)
        ∧ (setField (singlePointCrossoverS st pa pb k).1 (st.nextFree + i) f).heap (pb act)
          = st.heap (pb act)) := by
  have hchild : ∀ i, i < ACTIVITY_LIST.length →
      (singlePointCrossoverS st pa pb k).1.heap (st.nextFree + i) =
        (if i ≤ k then st.heap (pa (ACTIVITY_LIST.getD i ""))
         else st.heap (pb (ACTIVITY_LIST.getD i ""))) := by
    intro i hi
    show (if st.nextFree ≤ st.nextFree + i ∧ st.nextFree + i < st.nextFree + ACTIVITY_LIST.length
          then st.heap (if st.nextFree + i - st.nextFree ≤ k
                        then pa (ACTIVITY_LIST.getD (st.nextFree + i - st.nextFree) "")
                        else pb (ACTIVITY_LIST.getD (st.nextFree + i - st.nextFree) ""))
          else st.heap (st.nextFree + i)) = _
    rw [if_pos ⟨by omega, by omega⟩]
    have hsub : st.nextFree + i - st.nextFree = i := by omega
    rw [hsub]
    split <;> rfl
  have hframe : ∀ q, q < st.nextFree →
      (singlePointCrossoverS st pa pb k).1.heap q = st.heap q := by
    intro q hq
    show (if st.nextFree ≤ q ∧ q < st.nextFree + ACTIVITY_LIST.length
          then _ else st.heap q) = st.heap q
    rw [if_neg]
    rintro ⟨h1, -⟩
    omega
  refine ⟨?_, ?_, ?_⟩
  · intro i hi
    refine ⟨?_, hchild i hi⟩
    show (((List.range ACTIVITY_LIST.length).map
        (fun i => (ACTIVITY_LIST.getD i "", st.nextFree + i))).getD i ("", 0)) = _
    rw [List.getD_eq_getElem]
    · simp
    · simpa using hi
  · intro act
    exact ⟨hframe (pa act) (hpa act), hframe (pb act) (hpb act)⟩
  · intro i hi f act
    constructor
    · show (if pa act = st.nextFree + i
            then f ((singlePointCrossoverS st pa pb k).1.heap (pa act))
            else (singlePointCrossoverS st pa pb k).1.heap (pa act)) = st.heap (pa act)
      rw [if_neg (by have := hpa act; omega)]
      exact hframe (pa act) (hpa act)
    · show (if pb act = st.nextFree + i
            then f ((singlePointCrossoverS st pa pb k).1.heap (pb act))
            else (singlePointCrossoverS st pa pb k).1.heap (pb act)) = st.heap (pb act)
      rw [if_neg (by have := hpb act; omega)]
      exact hframe (pb act) (hpb act)

/-- Witness for C4 at a one-address store with both parents at address 0. -/
theorem single_point_crossover_spec_witness :
    (∀ act : String, (fun _ : String => 0) act
        < (Store.mk (fun _ => ⟨none, none, none⟩) 1).nextFree)
    ∧ ((∀ i, i < ACTIVITY_LIST.length →
        (singlePointCrossoverS (Store.mk (fun _ => ⟨none, none, none⟩) 1)
            (fun _ => 0) (fun _ => 0) 4).2.getD i ("", 0)
          = (ACTIVITY_LIST.getD i "",
             (Store.mk (fun _ => ⟨none, none, none⟩) 1).nextFree + i)
        ∧ (singlePointCrossoverS (Store.mk (fun _ => ⟨none, none, none⟩) 1)
            (fun _ => 0) (fun _ => 0) 4).1.heap
            ((Store.mk (fun _ => ⟨none, none, none⟩) 1).nextFree + i) =
            (if i ≤ 4 then (Store.mk (fun _ => ⟨none, none, none⟩) 1).heap
                ((fun _ : String => 0) (ACTIVITY_LIST.getD i ""))
             else (Store.mk (fun _ => ⟨none, none, none⟩) 1).heap
                ((fun _ : String => 0) (ACTIVITY_LIST.getD i ""))))
      ∧ (∀ act, (singlePointCrossoverS (Store.mk (fun _ => ⟨none, none, none⟩) 1)
            (fun _ => 0) (fun _ => 0) 4).1.heap ((fun _ : String => 0) act)
            = (Store.mk (fun _ => ⟨none, none, none⟩) 1).heap ((fun _ : String => 0) act)
          ∧ (singlePointCrossoverS (Store.mk (fun _ => ⟨none, none, none⟩) 1)
            (fun _ => 0) (fun _ => 0) 4).1.heap ((fun _ : String => 0) act)
            = (Store.mk (fun _ => ⟨none, none, none⟩) 1).heap ((fun _ : String => 0) act))
      ∧ (∀ i, i < ACTIVITY_LIST.length → ∀ f act,
          (setField (singlePointCrossoverS (Store.mk (fun _ => ⟨none, none, none⟩) 1)
              (fun _ => 0) (fun _ => 0) 4).1
              ((Store.mk (fun _ => ⟨none, none, none⟩) 1).nextFree + i) f).heap
              ((fun _ : String => 0) act)
            = (Store.mk (fun _ => ⟨none, none, none⟩) 1).heap ((fun _ : String => 0) act)
          ∧ (setField (singlePointCrossoverS (Store.mk (fun _ => ⟨none, none, none⟩) 1)
              (fun _ => 0) (fun _ => 0) 4).1
              ((Store.mk (fun _ => ⟨none, none, none⟩) 1).nextFree + i) f).heap
              ((fun _ : String => 0) act)
            = (Store.mk (fun _ => ⟨none, none, none⟩) 1).heap ((fun _ : String => 0) act))) :=
  ⟨fun _ => Nat.one_pos,
   single_point_crossover_spec (Store.mk (fun _ => ⟨none, none, none⟩) 1)
     (fun _ => 0) (fun _ => 0) 4 (fun _ => Nat.one_pos) (fun _ => Nat.one_pos)⟩

/-- C6: with mutation rate 0.0 (draws are in [0, 1), hence never below
0), mutate leaves every room, time and facilitator field of every
activity — indeed the whole schedule — unchanged; with rate 1.0 (draws
strictly below 1) every one of the three fields of every catalogue
activity is replaced by the element of its full domain selected by the
corresponding random choice (which may coincide with the old value). -/
theorem mutation_rate_extremes (s : Schedule) (draws : String → Fin 3 → ℚ)
    (picks : String → Fin 3 → Nat)
    (hge : ∀ act i, 0 ≤ draws act i) (hlt : ∀ act i, draws act i < 1) :
    mutateSchedule 0 draws picks s = s
    ∧ (mutateSchedule 1 draws picks s).assignments =
        s.assignments.map (fun p =>
          if p.1 ∈ ACTIVITY_LIST
          then (p.1, (⟨some (ROOM_KEYS.getD (picks p.1 0) ""),
                      some (TIME_SLOTS.getD (picks p.1 1) ""),
                      some (FACILITATORS.getD (picks p.1 2) "")⟩ : Assignment))
          else p)
    ∧ (∀ act, picks act 0 < ROOM_KEYS.length →
         ROOM_KEYS.getD (picks act 0) "" ∈ ROOM_KEYS)
    ∧ (∀ act, picks act 1 < TIME_SLOTS.length →
         TIME_SLOTS.getD (picks act 1) "" ∈ TIME_SLOTS)
    ∧ (∀ act, picks act 2 < FACILITATORS.length →
         FACILITATORS.getD (picks act 2) "" ∈ FACILITATORS) := by
  have hgetD : ∀ (l : List String) (n : Nat), n < l.length → l.getD n "" ∈ l := by
    intro l n h
    rw [List.getD_eq_getElem l "" h]
    exact List.getElem_mem h
  refine ⟨?_, ?_, fun act h => hgetD _ _ h, fun act h => hgetD _ _ h,
    fun act h => hgetD _ _ h⟩
  · have hassign : ∀ p : String × Assignment,
        (if p.1 ∈ ACTIVITY_LIST
         then (p.1, mutateAssignment 0 (draws p.1) (picks p.1) p.2) else p) = p := by
      intro p
      have hma : mutateAssignment 0 (draws p.1) (picks p.1) p.2 = p.2 := by
        have h0 := eq_false (not_lt.mpr (hge p.1 0))
        have h1 := eq_false (not_lt.mpr (hge p.1 1))
        have h2 := eq_false (not_lt.mpr (hge p.1 2))
        simp only [mutateAssignment, h0, h1, h2, if_false]
      rw [hma]
      split <;> rfl
    show ({ s with assignments := s.assignments.map _ } : Schedule) = s
    have hlist : s.assignments.map (fun p =>
        if p.1 ∈ ACTIVITY_LIST
        then (p.1, mutateAssignment 0 (draws p.1) (picks p.1) p.2) else p)
        = s.assignments := by
      simp only [hassign]
      exact List.map_id s.assignments
    rw [hlist]
  · have hma1 : ∀ act a, mutateAssignment 1 (draws act) (picks act) a =
        (⟨some (ROOM_KEYS.getD (picks act 0) ""),
          some (TIME_SLOTS.getD (picks act 1) ""),
          some (FACILITATORS.getD (picks act 2) "")⟩ : Assignment) := by
      intro act a
      have h0 := eq_true (hlt act 0)
      have h1 := eq_true (hlt act 1)
      have h2 := eq_true (hlt act 2)
      simp only [mutateAssignment, h0, h1, h2, if_true]
    show s.assignments.map _ = _
    simp only [hma1]

/-- Witness for C6 at a one-activity schedule with all draws 0 and all
picks 0. -/
theorem mutation_rate_extremes_witness :
    (∀ (act : String) (i : Fin 3), (0:ℚ) ≤ (fun _ : String => fun _ : Fin 3 => (0:ℚ)) act i)
    ∧ (∀ (act : String) (i : Fin 3), (fun _ : String => fun _ : Fin 3 => (0:ℚ)) act i < 1)
    ∧ (mutateSchedule 0 (fun _ _ => 0) (fun _ _ => 0)
        { assignments := [("SLA201", ⟨some "Loft 206", some "1 PM", some "Glen"⟩)],
          fitness := none }
        = { assignments := [("SLA201", ⟨some "Loft 206", some "1 PM", some "Glen"⟩)],
            fitness := none }
      ∧ (mutateSchedule 1 (fun _ _ => 0) (fun _ _ => 0)
          { assignments := [("SLA201", ⟨some "Loft 206", some "1 PM", some "Glen"⟩)],
            fitness := none }).assignments =
          ({ assignments := [("SLA201", ⟨some "Loft 206", some "1 PM", some "Glen"⟩)],
             fitness := none } : Schedule).assignments.map (fun p =>
            if p.1 ∈ ACTIVITY_LIST
            then (p.1, (⟨some (ROOM_KEYS.getD ((fun _ : String => fun _ : Fin 3 => 0) p.1 0) ""),
                        some (TIME_SLOTS.getD ((fun _ : String => fun _ : Fin 3 => 0) p.1 1) ""),
                        some (FACILITATORS.getD ((fun _ : String => fun _ : Fin 3 => 0) p.1 2) "")⟩ : Assignment))
            else p)
      ∧ (∀ act : String, (fun _ : String => fun _ : Fin 3 => 0) act 0 < ROOM_KEYS.length →
           ROOM_KEYS.getD ((fun _ : String => fun _ : Fin 3 => 0) act 0) "" ∈ ROOM_KEYS)
      ∧ (∀ act : String, (fun _ : String => fun _ : Fin 3 => 0) act 1 < TIME_SLOTS.length →
           TIME_SLOTS.getD ((fun _ : String => fun _ : Fin 3 => 0) act 1) "" ∈ TIME_SLOTS)
      ∧ (∀ act : String, (fun _ : String => fun _ : Fin 3 => 0) act 2 < FACILITATORS.length →
           FACILITATORS.getD ((fun _ : String => fun _ : Fin 3 => 0) act 2) "" ∈ FACILITATORS)) :=
  ⟨fun _ _ => le_refl 0, fun _ _ => one_pos,
   mutation_rate_extremes
     { assignments := [("SLA201", ⟨some "Loft 206", some "1 PM", some "Glen"⟩)],
       fitness := none }
     (fun _ _ => 0) (fun _ _ => 0) (fun _ _ => le_refl 0) (fun _ _ => one_pos)⟩

/-- C8 counterexample: a Schedule built from an assignments dictionary
whose room "Nowhere 1" is not in the catalogue is accepted unchanged by
construction, and the fitness evaluator silently skips the room-fit term
for the unknown room (contributing 0) and computes a total of 3/10 for
the schedule instead of failing. -/
theorem schedule_accepts_unknown_refs_counterexample :
    (scheduleInit (some badAssignments)).assignments = badAssignments
    ∧ ROOMS.lookup "Nowhere 1" = none
    ∧ roomSizeTerm "SLA101A" (some "Nowhere 1") = 0
    ∧ (computeScheduleFitness (scheduleInit (some badAssignments))).2 = 3/10 := by
  refine ⟨rfl, rfl, rfl, ?_⟩
  simp [computeScheduleFitness, badAssignments, scheduleInit, activityScore,
    roomSizeTerm, facPreferenceTerm, roomTimeConflictTerm, facSameTimeTerm,
    facOverallLoadTermOf, facOverallLoadTerm, facTotalCount, facTimeCount,
    roomTimeCount, crossPart, scorePairTimeSpacing, scoreCross101191,
    PAIR_SLA101, PAIR_SLA191, CROSS_101_191, ACTIVITIES, ROOMS,
    List.lookup, List.filter]
  norm_num

/-- C8 amended: Schedule construction accepts any assignments dictionary
without catalogue validation (storing it verbatim with an empty fitness
cache), and the fitness evaluator's room-fit term silently contributes 0
— rather than failing — whenever the referenced activity or room is
absent from the catalogue. -/
theorem schedule_accepts_and_fitness_skips
    (a : List (String × Assignment)) (act r : String)
    (h : ACTIVITIES.lookup act = none ∨ ROOMS.lookup r = none) :
    (scheduleInit (some a)).assignments = a
    ∧ (scheduleInit (some a)).fitness = none
    ∧ roomSizeTerm act (some r) = 0 := by
  refine ⟨rfl, rfl, ?_⟩
  rcases h with h | h
  · simp [roomSizeTerm, h]
  · cases hA : ACTIVITIES.lookup act with
    | none => simp [roomSizeTerm, hA]
    | some info => simp [roomSizeTerm, hA, h]

/-- Witness for the amended C8 theorem at an unknown activity name. -/
theorem schedule_accepts_and_fitness_skips_witness :
    (ACTIVITIES.lookup "SLA999" = none ∨ ROOMS.lookup "Nowhere 2" = none)
    ∧ ((scheduleInit (some [])).assignments = []
       ∧ (scheduleInit (some [])).fitness = none
       ∧ roomSizeTerm "SLA999" (some "Nowhere 2") = 0) :=
  ⟨Or.inl rfl, schedule_accepts_and_fitness_skips [] "SLA999" "Nowhere 2" (Or.inl rfl)⟩

end GAScheduler
